import Mathlib

/-!
Verification of the chat-engine client library (src/index.js) against its
natural-language specification.

The development shallowly embeds the code's data model and operations:

* JS objects used as string-keyed dictionaries (`ChatEngine.users`,
  `Chat.users`, `User.states`, ...) become association lists with
  `getKey` / `setKey` / `delKey` mirroring property read / write / delete.
* Object identity (the spec's "reference-identical") is modelled with an
  explicit heap: every `User` object is allocated at a fresh `Nat` ref,
  and both the global user table and each chat's roster store refs.
* `Chat.trigger` of a lifecycle event is modelled as appending the event
  to an emitted-event list; the middleware pipeline (`runPluginQueue`,
  async `waterfall`) is modelled separately and exactly.
* Channel-name construction mirrors `Array.prototype.join(':')` and
  `String.prototype.indexOf`.
-/

namespace ChatEngine

/-! ## Association-list primitives (JS object as dictionary) -/

/-- Read a property: `m[k]`, `undefined` becomes `none`. -/
def getKey {κ α : Type} [DecidableEq κ] : List (κ × α) → κ → Option α
  | [], _ => none
  | (k2, v2) :: rest, k => if k2 = k then some v2 else getKey rest k

/-- Write a property: `m[k] = v` (in-place overwrite keeps key position). -/
def setKey {κ α : Type} [DecidableEq κ] : List (κ × α) → κ → α → List (κ × α)
  | [], k, v => [(k, v)]
  | (k2, v2) :: rest, k, v =>
    if k2 = k then (k, v) :: rest else (k2, v2) :: setKey rest k v

/-- Delete a property: `delete m[k]`. -/
def delKey {κ α : Type} [DecidableEq κ] : List (κ × α) → κ → List (κ × α)
  | [], _ => []
  | (k2, v2) :: rest, k => if k2 = k then rest else (k2, v2) :: delKey rest k

theorem getKey_setKey_self {κ α : Type} [DecidableEq κ] (m : List (κ × α)) (k : κ) (v : α) :
    getKey (setKey m k v) k = some v := by
  induction m with
  | nil => simp [getKey, setKey]
  | cons kv rest ih =>
    by_cases h : kv.1 = k
    · simp [getKey, setKey, h]
    · simp [getKey, setKey, h, ih]

theorem getKey_setKey_ne {κ α : Type} [DecidableEq κ] (m : List (κ × α)) (k u : κ) (v : α)
    (h : u ≠ k) : getKey (setKey m k v) u = getKey m u := by
  induction m with
  | nil => simp [getKey, setKey, Ne.symm h]
  | cons kv rest ih =>
    by_cases h2 : kv.1 = k
    · subst h2
      simp [getKey, setKey, Ne.symm h]
    · simp [getKey, setKey, h2, ih]

theorem getKey_eq_none_of_not_mem {κ α : Type} [DecidableEq κ]
    (m : List (κ × α)) (k : κ) (h : k ∉ m.map Prod.fst) : getKey m k = none := by
  induction m with
  | nil => rfl
  | cons kv rest ih =>
    simp only [List.map_cons, List.mem_cons] at h
    push_neg at h
    simp [getKey, Ne.symm h.1, ih h.2]

theorem getKey_delKey_self {κ α : Type} [DecidableEq κ]
    (m : List (κ × α)) (k : κ) (hnd : (m.map Prod.fst).Nodup) :
    getKey (delKey m k) k = none := by
  induction m with
  | nil => rfl
  | cons kv rest ih =>
    simp only [List.map_cons, List.nodup_cons] at hnd
    by_cases h : kv.1 = k
    · rw [delKey, if_pos h]
      exact getKey_eq_none_of_not_mem rest k (h ▸ hnd.1)
    · rw [delKey, if_neg h, getKey, if_neg h]
      exact ih hnd.2

theorem getKey_delKey_ne {κ α : Type} [DecidableEq κ]
    (m : List (κ × α)) (k u : κ) (h : u ≠ k) :
    getKey (delKey m k) u = getKey m u := by
  induction m with
  | nil => rfl
  | cons kv rest ih =>
    by_cases h2 : kv.1 = k
    · rw [delKey, if_pos h2, getKey, if_neg]
      rw [h2]
      exact fun hh => h hh.symm
    · rw [delKey, if_neg h2, getKey, getKey]
      by_cases h3 : kv.1 = u
      · simp [h3]
      · simp [h3, ih]

theorem getKey_delKey_sub {κ α : Type} [DecidableEq κ]
    (m : List (κ × α)) (k u : κ) (r : α) (hnd : (m.map Prod.fst).Nodup)
    (h : getKey (delKey m k) u = some r) : getKey m u = some r := by
  by_cases he : u = k
  · subst he
    rw [getKey_delKey_self m u hnd] at h
    exact absurd h (by simp)
  · rwa [getKey_delKey_ne m k u he] at h

theorem mem_keys_setKey {κ α : Type} [DecidableEq κ]
    (m : List (κ × α)) (k u : κ) (v : α)
    (h : u ∈ (setKey m k v).map Prod.fst) : u ∈ m.map Prod.fst ∨ u = k := by
  induction m with
  | nil => simp [setKey] at h; simp [h]
  | cons kv rest ih =>
    by_cases h2 : kv.1 = k
    · rw [setKey, if_pos h2] at h
      simp only [List.map_cons, List.mem_cons] at h ⊢
      rcases h with h | h
      · right; exact h
      · left; right; exact h
    · rw [setKey, if_neg h2] at h
      simp only [List.map_cons, List.mem_cons] at h ⊢
      rcases h with h | h
      · left; left; exact h
      · rcases ih h with h3 | h3
        · left; right; exact h3
        · right; exact h3

theorem nodup_setKey {κ α : Type} [DecidableEq κ]
    (m : List (κ × α)) (k : κ) (v : α) (hnd : (m.map Prod.fst).Nodup) :
    ((setKey m k v).map Prod.fst).Nodup := by
  induction m with
  | nil => simp [setKey]
  | cons kv rest ih =>
    simp only [List.map_cons, List.nodup_cons] at hnd
    by_cases h2 : kv.1 = k
    · rw [setKey, if_pos h2]
      simp only [List.map_cons, List.nodup_cons]
      exact ⟨h2 ▸ hnd.1, hnd.2⟩
    · rw [setKey, if_neg h2]
      simp only [List.map_cons, List.nodup_cons]
      refine ⟨fun hmem => ?_, ih hnd.2⟩
      rcases mem_keys_setKey rest k kv.1 v hmem with h3 | h3
      · exact hnd.1 h3
      · exact h2 h3

theorem mem_keys_delKey {κ α : Type} [DecidableEq κ]
    (m : List (κ × α)) (k u : κ)
    (h : u ∈ (delKey m k).map Prod.fst) : u ∈ m.map Prod.fst := by
  induction m with
  | nil => simp [delKey] at h
  | cons kv rest ih =>
    by_cases h3 : kv.1 = k
    · rw [delKey, if_pos h3] at h
      simp only [List.map_cons, List.mem_cons]
      right; exact h
    · rw [delKey, if_neg h3] at h
      simp only [List.map_cons, List.mem_cons] at h ⊢
      rcases h with h4 | h4
      · left; exact h4
      · right; exact ih h4

theorem nodup_delKey {κ α : Type} [DecidableEq κ]
    (m : List (κ × α)) (k : κ) (hnd : (m.map Prod.fst).Nodup) :
    ((delKey m k).map Prod.fst).Nodup := by
  induction m with
  | nil => simp [delKey]
  | cons kv rest ih =>
    simp only [List.map_cons, List.nodup_cons] at hnd
    by_cases h2 : kv.1 = k
    · rw [delKey, if_pos h2]
      exact hnd.2
    · rw [delKey, if_neg h2]
      simp only [List.map_cons, List.nodup_cons]
      exact ⟨fun hmem => hnd.1 (mem_keys_delKey rest k kv.1 hmem), ih hnd.2⟩

/-- `Object.assign(target, source)`: shallow key-wise overwrite of `target`
by every key of `source` (later duplicate keys of `source` win, as in JS
iteration order). -/
def objAssign {α : Type} (target source : List (String × α)) : List (String × α) :=
  source.foldl (fun acc kv => setKey acc kv.1 kv.2) target

theorem objAssign_getKey_none {α : Type} (s : List (String × α)) (k : String) :
    ∀ t : List (String × α), getKey s k = none → getKey (objAssign t s) k = getKey t k := by
  induction s with
  | nil => intro t _; rfl
  | cons kv rest ih =>
    intro t h
    rw [getKey] at h
    by_cases h2 : kv.1 = k
    · rw [if_pos h2] at h; exact absurd h (by simp)
    · rw [if_neg h2] at h
      rw [objAssign, List.foldl_cons]
      have hrec := ih (setKey t kv.1 kv.2) h
      rw [objAssign] at hrec
      rw [hrec, getKey_setKey_ne t kv.1 k kv.2 (Ne.symm h2)]

theorem objAssign_getKey_some {α : Type} (s : List (String × α)) (k : String) (v : α)
    (hnd : (s.map Prod.fst).Nodup) :
    ∀ t : List (String × α), getKey s k = some v → getKey (objAssign t s) k = some v := by
  induction s with
  | nil => intro t h; exact absurd h (by simp [getKey])
  | cons kv rest ih =>
    simp only [List.map_cons, List.nodup_cons] at hnd
    intro t h
    rw [getKey] at h
    by_cases h2 : kv.1 = k
    · rw [if_pos h2] at h
      rw [objAssign, List.foldl_cons]
      have hrest : getKey rest k = none :=
        getKey_eq_none_of_not_mem rest k (h2 ▸ hnd.1)
      have hrec := objAssign_getKey_none rest k (setKey t kv.1 kv.2) hrest
      rw [objAssign] at hrec
      rw [hrec, h2, getKey_setKey_self]
      exact h
    · rw [if_neg h2] at h
      rw [objAssign, List.foldl_cons]
      have hrec := ih hnd.2 (setKey t kv.1 kv.2) h
      rw [objAssign] at hrec
      exact hrec

/-! ## Channel naming (`Chat` constructor, `User` constructor)

`Chat`:
```js
this.channel = channel.toString();
let chanPrivString = 'public.';
if (needGrant) { chanPrivString = 'private.'; }
if (this.channel.indexOf(ceConfig.globalChannel) == -1) {
    this.channel = [ceConfig.globalChannel, 'chat', chanPrivString, channel].join(':');
}
```
`User`:
```js
this.feed  = new Chat([... .globalChat.channel, 'user', uuid, 'read.',  'feed'].join(':'), isMe, false);
this.direct = new Chat([... .globalChat.channel, 'user', uuid, 'write.', 'direct'].join(':'), isMe, false);
```
-/

/-- `Array.prototype.join(':')`. -/
def joinColon : List String → String
  | [] => ""
  | [s] => s
  | s :: rest => s ++ ":" ++ joinColon rest

/-- `s.indexOf(sub) != -1`: scans every position of `s` for `sub`
(the empty pattern is found at position 0, as in JS). -/
def strContainsAux (sub : List Char) : List Char → Bool
  | [] => sub.isPrefixOf []
  | c :: cs => sub.isPrefixOf (c :: cs) || strContainsAux sub cs

/-- `s.indexOf(sub) != -1` as a Bool on `String`. -/
def strContains (s sub : String) : Bool := strContainsAux sub.data s.data

/-- Canonical channel of an ordinary `Chat` (the constructor's rewrite of
`this.channel`); `needGrant` defaults to `true` (private) in the source. -/
def chatChannel (globalChannel : String) (needGrant : Bool) (channel : String) : String :=
  let chanPrivString := if needGrant then "private." else "public."
  if strContains channel globalChannel then channel
  else joinColon [globalChannel, "chat", chanPrivString, channel]

/-- The raw name the `User` constructor passes for the feed chat. -/
def rawFeedChannel (globalChannel uuid : String) : String :=
  joinColon [globalChannel, "user", uuid, "read.", "feed"]

/-- The raw name the `User` constructor passes for the direct chat. -/
def rawDirectChannel (globalChannel uuid : String) : String :=
  joinColon [globalChannel, "user", uuid, "write.", "direct"]

/-- The feed chat's canonical channel (raw name run through the `Chat`
constructor with `needGrant = false`). -/
def feedChannel (globalChannel uuid : String) : String :=
  chatChannel globalChannel false (rawFeedChannel globalChannel uuid)

/-- The direct chat's canonical channel. -/
def directChannel (globalChannel uuid : String) : String :=
  chatChannel globalChannel false (rawDirectChannel globalChannel uuid)

theorem str_append_assoc (a b c : String) : a ++ b ++ c = a ++ (b ++ c) := by
  simp [String.congr_append]

theorem isPrefixOf_append_self (l r : List Char) : l.isPrefixOf (l ++ r) = true := by
  induction l with
  | nil => simp [List.isPrefixOf]
  | cons a as ih => simp [List.isPrefixOf, ih]

theorem strContainsAux_append_self (sub r : List Char) :
    strContainsAux sub (sub ++ r) = true := by
  cases h : sub ++ r with
  | nil =>
    have hs : sub = [] := by
      cases sub with
      | nil => rfl
      | cons a as => simp at h
    subst hs
    simp [strContainsAux, List.isPrefixOf]
  | cons c cs =>
    rw [strContainsAux, ← h]
    simp [isPrefixOf_append_self]

theorem strContains_left_append (g x : String) : strContains (g ++ x) g = true := by
  unfold strContains
  have h : (g ++ x).data = g.data ++ x.data := by simp [String.congr_append]
  rw [h]
  exact strContainsAux_append_self _ _

theorem strContains_rawFeed (g u : String) :
    strContains (rawFeedChannel g u) g = true := by
  have h : rawFeedChannel g u = g ++ (":" ++ joinColon ["user", u, "read.", "feed"]) := by
    simp [rawFeedChannel, joinColon, str_append_assoc]
  rw [h]
  exact strContains_left_append _ _

theorem strContains_rawDirect (g u : String) :
    strContains (rawDirectChannel g u) g = true := by
  have h : rawDirectChannel g u = g ++ (":" ++ joinColon ["user", u, "write.", "direct"]) := by
    simp [rawDirectChannel, joinColon, str_append_assoc]
  rw [h]
  exact strContains_left_append _ _

/-! ## Dynamic model: users, chats, presence and status handlers

`User` objects are mutable JS objects aliased by the global table
`ChatEngine.users` and each chat's roster `this.users`.  We model the heap
explicitly: a `User` lives at a `Nat` ref; `Engine.users` (the global
table) and `ChatState.users` (a roster) map uuid strings to refs.  Two
dictionary entries are "reference-identical" exactly when they hold the
same ref. -/

/-- A per-room state object: a JS object of string keys and (here) integer
values; the value type is irrelevant to the claims. -/
abbrev StateMap := List (String × Int)

/-- The mutable fields of a `User` object that the tracked operations
touch: `uuid`, `states` (channel → per-room state) and `chats`
(channel-name key set).  The `feed`/`direct` sub-chats the constructor
also creates never feed back into these fields and are modelled only by
their channel names (`feedChannel` / `directChannel` above). -/
structure UserObj where
  uuid : String
  states : List (String × StateMap)
  chats : List String
deriving DecidableEq

/-- Process-wide registry state: the global user table, the heap of
allocated `User` objects, the allocation counter and the configured
global channel. -/
structure Engine where
  users : List (String × Nat)
  heap : List (Nat × UserObj)
  nextRef : Nat
  globalChannel : String
deriving DecidableEq

/-- The per-chat state the presence/status handlers touch: the canonical
channel, the roster `this.users` and the `connected` flag. -/
structure ChatState where
  channel : String
  users : List (String × Nat)
  connected : Bool
deriving DecidableEq

/-- Local lifecycle notifications a `Chat` triggers, with the uuid and the
heap ref of the `User` the payload carries (`$.state` also carries the
merged state object). -/
inductive Ev where
  | onlineNew (uuid : String) (ref : Nat)
  | onlineJoin (uuid : String) (ref : Nat)
  | offlineLeave (uuid : String) (ref : Nat)
  | offlineDisconnect (uuid : String) (ref : Nat)
  | stateEv (uuid : String) (ref : Nat) (st : StateMap)
  | connectedEv
deriving DecidableEq

/-- Result of one handler run: the registry, the chat, and the lifecycle
notifications triggered, in order. -/
structure StepResult where
  engine : Engine
  chat : ChatState
  evs : List Ev
deriving DecidableEq

/-- `new User(uuid)` field initialisation: `states = {}`, `chats = {}`,
then `this.assign({}, ChatEngine.globalChat)` records an empty state under
the global channel. -/
def newUserObj (globalChannel uuid : String) : UserObj :=
  { uuid := uuid, states := [(globalChannel, [])], chats := [] }

/-- `new User(uuid)` when `uuid` is absent from the global table: allocate
the object; the constructor's final step
(`if (!ChatEngine.users[uuid]) ChatEngine.users[uuid] = this`) registers
it. -/
def jsNewUser (e : Engine) (uuid : String) : Engine × Nat :=
  let ref := e.nextRef
  let obj := newUserObj e.globalChannel uuid
  let users2 := if (getKey e.users uuid).isNone then setKey e.users uuid ref else e.users
  ({ e with users := users2, heap := setKey e.heap ref obj, nextRef := e.nextRef + 1 }, ref)

/-- `ChatEngine.users[uuid] = ChatEngine.users[uuid] || new User(uuid)`:
reuse the registered object, else construct one (the constructor registers
it, and the outer assignment rewrites the same binding). -/
def ensureGlobalUser (e : Engine) (uuid : String) : Engine × Nat :=
  match getKey e.users uuid with
  | some r => (e, r)
  | none => jsNewUser e uuid

/-- Mutate the `User` object at `ref` in place (every tracked call site
passes a ref that is allocated). -/
def modifyUser (e : Engine) (ref : Nat) (f : UserObj → UserObj) : Engine :=
  match getKey e.heap ref with
  | some u => { e with heap := setKey e.heap ref (f u) }
  | none => e

/-- `User.update(state, chat)`:
`this.states[chat.channel] = Object.assign(this.state(chat) || {}, state)`
(`User.assign` simply forwards here). -/
def userAssign (u : UserObj) (chan : String) (st : StateMap) : UserObj :=
  { u with states := setKey u.states chan (objAssign ((getKey u.states chan).getD []) st) }

/-- `User.addChat(chat, state)`: record the chat under its channel, then
merge the state. -/
def userAddChat (u : UserObj) (chan : String) (st : StateMap) : UserObj :=
  userAssign { u with chats := if u.chats.contains chan then u.chats else u.chats ++ [chan] } chan st

/-- `User.state(chat)`: `this.states[chat.channel] || {}`, read through
the heap. -/
def userStateIn (e : Engine) (ref : Nat) (chan : String) : StateMap :=
  match getKey e.heap ref with
  | some u => (getKey u.states chan).getD []
  | none => []

/-- `Chat.createUser(uuid, state, trigger = false)`.  Ensures the global
user, adds this chat to it, triggers `$.online.new` if the uuid is not in
the roster (or when forced), then stores the global ref in the roster.
Returns the user's ref alongside the step result. -/
def createUser (e : Engine) (c : ChatState) (uuid : String) (st : StateMap) (force : Bool) :
    StepResult × Nat :=
  let er := ensureGlobalUser e uuid
  let e2 := modifyUser er.1 er.2 (fun u => userAddChat u c.channel st)
  let evs := if (getKey c.users uuid).isNone || force then [Ev.onlineNew uuid er.2] else []
  ({ engine := e2, chat := { c with users := setKey c.users uuid er.2 }, evs := evs }, er.2)

/-- `Chat.userUpdate(uuid, state)`: ensure the global user; if the roster
does not know the uuid, run the whole `createUser` join path; merge the
state into the rostered user; trigger `$.state` with the user's fully
merged state for this chat. -/
def userUpdate (e : Engine) (c : ChatState) (uuid : String) (st : StateMap) : StepResult :=
  let e1 := (ensureGlobalUser e uuid).1
  let r0 :=
    match getKey c.users uuid with
    | none => createUser e1 c uuid st false
    | some r => ({ engine := e1, chat := c, evs := [] }, r)
  let e2 := modifyUser r0.1.engine r0.2 (fun u => userAssign u c.channel st)
  { engine := e2, chat := r0.1.chat,
    evs := r0.1.evs ++ [Ev.stateEv uuid r0.2 (userStateIn e2 r0.2 c.channel)] }

/-- `Chat.userLeave(uuid)`: if the uuid is rostered, trigger
`$.offline.leave` and delete the roster entry (the global table is left
alone); otherwise do nothing. -/
def userLeave (e : Engine) (c : ChatState) (uuid : String) : StepResult :=
  match getKey c.users uuid with
  | some ref =>
    { engine := e, chat := { c with users := delKey c.users uuid },
      evs := [Ev.offlineLeave uuid ref] }
  | none => { engine := e, chat := c, evs := [] }

/-- `Chat.userDisconnect(uuid)`: if the uuid is rostered, trigger
`$.offline.disconnect`; the roster is not changed. -/
def userDisconnect (e : Engine) (c : ChatState) (uuid : String) : StepResult :=
  match getKey c.users uuid with
  | some ref => { engine := e, chat := c, evs := [Ev.offlineDisconnect uuid ref] }
  | none => { engine := e, chat := c, evs := [] }

/-- A PubNub presence notification as `Chat.onPresence` reads it. -/
structure PresenceEvent where
  channel : String
  action : String
  uuid : String
  state : StateMap
deriving DecidableEq

/-- `Chat.onPresence(presenceEvent)`: ignore foreign channels, then
dispatch on the action (the four `if` branches test the same field
against distinct literals, so at most one fires). -/
def onPresence (e : Engine) (c : ChatState) (p : PresenceEvent) : StepResult :=
  if c.channel = p.channel then
    if p.action = "join" then
      let r := createUser e c p.uuid p.state false
      { r.1 with evs := r.1.evs ++ [Ev.onlineJoin p.uuid r.2] }
    else if p.action = "leave" then userLeave e c p.uuid
    else if p.action = "timeout" then userDisconnect e c p.uuid
    else if p.action = "state-change" then userUpdate e c p.uuid p.state
    else { engine := e, chat := c, evs := [] }
  else { engine := e, chat := c, evs := [] }

/-- A PubNub status notification as `Chat.onStatus` reads it. -/
structure StatusEvent where
  category : String
  affectedChannels : List String
deriving DecidableEq

/-- `Chat.onStatus(statusEvent)`: on a `PNConnectedCategory` status whose
`affectedChannels` contain this chat's channel, set `this.connected = true`
and trigger `$.connected` — with no guard on the previous value of
`this.connected`. -/
def onStatus (c : ChatState) (s : StatusEvent) : ChatState × List Ev :=
  if s.category = "PNConnectedCategory" then
    if s.affectedChannels.contains c.channel then
      ({ c with connected := true }, [Ev.connectedEv])
    else (c, [])
  else (c, [])

/-- Deliver the same status notification twice in a row, collecting the
triggered events. -/
def deliverStatusTwice (c : ChatState) (s : StatusEvent) : ChatState × List Ev :=
  let r1 := onStatus c s
  let r2 := onStatus r1.1 s
  (r2.1, r1.2 ++ r2.2)

/-- Calls `Chat.connect` / `Chat.leave` make to the transport. -/
inductive TransportAction where
  | subscribeChans (channels : List String)
  | unsubscribeChans (channels : List String)
deriving DecidableEq

/-- `Chat.connect()`: guarded by `if (!this.connected)`; subscribes with
presence (the listener registration and `hereNow` call are not transport
channel operations and are elided). -/
def connect (c : ChatState) : ChatState × List TransportAction :=
  if !c.connected then (c, [TransportAction.subscribeChans [c.channel]])
  else (c, [])

/-- `Chat.leave()`: its whole body is one `pubnub.unsubscribe` call; it
touches neither `this.connected` nor `this.users`. -/
def leave (c : ChatState) : ChatState × List TransportAction :=
  (c, [TransportAction.unsubscribeChans [c.channel]])

/-- Does the event list contain a `$.online.new` for this uuid? -/
def hasOnlineNew (evs : List Ev) (uuid : String) : Bool :=
  evs.any fun ev =>
    match ev with
    | .onlineNew u _ => u == uuid
    | _ => false

/-- Does the event list contain a `$.state` for this uuid? -/
def hasStateEv (evs : List Ev) (uuid : String) : Bool :=
  evs.any fun ev =>
    match ev with
    | .stateEv u _ _ => u == uuid
    | _ => false

/-! ## Middleware pipeline (`Emitter.plugin`, `Chat.runPluginQueue`,
`Chat.emit`, `Chat.trigger`)

A plugin handler `(payload, next) => next(err, newPayload)` either
produces the next payload or signals an error; we model it as
`α → Except String α`.  `async/waterfall` runs the queued functions in
order, feeding each one the previous output; the first error short-cuts
straight to the final callback, which then receives `(err, undefined)`. -/

/-- A plugin as `runPluginQueue` consults it: the nested lookup
`module.middleware[location][event]` becomes one total function to an
optional handler. -/
structure Plugin (α : Type) where
  middleware : String → String → Option (α → Except String α)

/-- The loop of `runPluginQueue` that assembles `plugin_queue` (minus the
mandatory seed step): every registered plugin's handler for
`(location, event)`, in registration order. -/
def buildQueue {α : Type} (plugins : List (Plugin α)) (location event : String) :
    List (α → Except String α) :=
  plugins.filterMap fun pl => pl.middleware location event

/-- `async/waterfall` semantics on the queued handlers: run in order, each
receiving the previous result; an error aborts the remaining tasks and is
passed to the final callback. -/
def runTasks {α : Type} (acc : Except String α) : List (α → Except String α) → Except String α
  | [] => acc
  | t :: rest =>
    match acc with
    | .error msg => .error msg
    | .ok p => runTasks (t p) rest

/-- `Chat.runPluginQueue(location, event, first, last)`: the seed step's
output (`first`) flows through the assembled queue; the overall result is
what the final callback `last` receives. -/
def runPluginQueue {α : Type} (plugins : List (Plugin α)) (location event : String)
    (seed : Except String α) : Except String α :=
  runTasks seed (buildQueue plugins location event)

/-- The event payload as the pipeline claims see it: `marks` stands for
the mutable payload content (plugins may append markers), `chat` for the
presence of the `chat` property (`Chat.emit` deletes it before
publishing, `Chat.trigger` reattaches it).  The `data`/`sender` fields
play no role in the pipeline claims and are elided. -/
structure Payload where
  marks : List String
  chat : Bool
deriving DecidableEq

/-- The envelope `Chat.emit` seeds the pipeline with:
`{data, sender: me.uuid, chat: this}`. -/
def emitSeedPayload (marks : List String) : Payload :=
  { marks := marks, chat := true }

/-- What became of one `Chat.emit` call. -/
inductive EmitOutcome where
  | published (p : Payload)
  | thrown
deriving DecidableEq

/-- `Chat.emit(event, data)`: seed the emit-stage pipeline; the final
callback does `delete payload.chat` and publishes.  When a middleware
step failed, waterfall calls the final callback as `last(err)` — its
`payload` parameter is `undefined`, so `delete payload.chat` throws a
`TypeError` before any publish happens. -/
def emitRun (plugins : List (Plugin Payload)) (event : String) (marks : List String) :
    EmitOutcome :=
  match runPluginQueue plugins "emit" event (Except.ok (emitSeedPayload marks)) with
  | .ok p => .published { p with chat := false }
  | .error _ => .thrown

/-- The payload preprocessing at the top of `Chat.trigger`:
`if (!payload.chat) payload.chat = this` (the sender-to-User upgrade
involves fields elided from `Payload`). -/
def reattachChat (p : Payload) : Payload :=
  if p.chat then p else { p with chat := true }

/-- What became of one `Chat.trigger` call: the final callback runs
`this._emit(event, payload)` unconditionally, so local listeners are
always invoked; `none` is the `undefined` payload they receive after a
middleware error. -/
inductive TriggerOutcome where
  | delivered (payload : Option Payload)
deriving DecidableEq

/-- `Chat.trigger(event, payload)`: preprocess, run the `'on'`-stage
pipeline, then `_emit` whatever the final callback received. -/
def triggerRun (plugins : List (Plugin Payload)) (event : String) (seed : Payload) :
    TriggerOutcome :=
  match runPluginQueue plugins "on" event (Except.ok (reattachChat seed)) with
  | .ok p => .delivered (some p)
  | .error _ => .delivered none

/-- Whether local listeners were invoked by a `trigger` call. -/
def deliveredToListeners : TriggerOutcome → Bool
  | .delivered _ => true

/-- A plugin registering a single handler for one `(location, event)`
pair. -/
def mkPlugin {α : Type} (location event : String) (h : α → Except String α) : Plugin α :=
  { middleware := fun l e => if l = location ∧ e = event then some h else none }

/-! ## Multi-chat world (for the Identity-singleton invariant)

Every connected chat registers its `onPresence` listener with the shared
PubNub instance, so one presence notification reaches every chat's
handler (each filters by channel); the handlers share the mutable
registry. -/

/-- The process: the shared registry plus every chat whose listeners are
installed. -/
structure World where
  engine : Engine
  chats : List ChatState
deriving DecidableEq

/-- Fan one presence notification out to every chat's `onPresence`
handler, threading the shared registry through them in order. -/
def stepChats (e : Engine) (cs : List ChatState) (p : PresenceEvent) :
    Engine × List ChatState × List Ev :=
  match cs with
  | [] => (e, [], [])
  | c :: rest =>
    let r := onPresence e c p
    let rec2 := stepChats r.engine rest p
    (rec2.1, r.chat :: rec2.2.1, r.evs ++ rec2.2.2)

/-- One presence notification delivered to the whole process. -/
def stepWorld (w : World) (p : PresenceEvent) : World × List Ev :=
  let r := stepChats w.engine w.chats p
  ({ engine := r.1, chats := r.2.1 }, r.2.2)

/-- A whole sequence of presence notifications. -/
def runWorld (w : World) : List PresenceEvent → World
  | [] => w
  | p :: ps => runWorld (stepWorld w p).1 ps

/-- Every roster entry of `c` is reference-identical (same ref) to the
global table's entry for the same uuid, and the roster, as a JS object,
has no duplicate keys. -/
def chatAligned (e : Engine) (c : ChatState) : Prop :=
  (∀ u r, getKey c.users u = some r → getKey e.users u = some r)
  ∧ (c.users.map Prod.fst).Nodup

/-- The singleton invariant over the whole process. -/
def worldAligned (w : World) : Prop :=
  ∀ c ∈ w.chats, chatAligned w.engine c

/-- The global table only ever acquires bindings; an id's ref, once
assigned, never changes (later observations mutate the same heap
object). -/
def enginePersists (e e2 : Engine) : Prop :=
  ∀ u r, getKey e.users u = some r → getKey e2.users u = some r

/-! ## Concrete fixtures used by witnesses and counterexamples -/

/-- A fresh registry with the default global channel. -/
def engine0 : Engine :=
  { users := [], heap := [], nextRef := 0, globalChannel := "chat-engine" }

/-- A freshly created, connected chat with an empty roster. -/
def lobbyChat : ChatState :=
  { channel := "chat-engine:chat:private.:lobby", users := [], connected := true }

/-- A join presence notification for `u2` on the lobby channel. -/
def joinEvU2 : PresenceEvent :=
  { channel := "chat-engine:chat:private.:lobby", action := "join", uuid := "u2",
    state := [("name", 7)] }

/-- First `state-change` reconciliation: merge `a ↦ 1` into `u2`. -/
def mergeStep1 : StepResult := userUpdate engine0 lobbyChat "u2" [("a", 1)]

/-- Second `state-change` reconciliation: merge `b ↦ 2` into `u2`. -/
def mergeStep2 : StepResult := userUpdate mergeStep1.engine mergeStep1.chat "u2" [("b", 2)]

/-! ## C4 — channel naming -/

/-- C4 counterexample: with global namespace `chat-engine`, identifier
`lobby` and uuid `u1`, the constructor's `join(':')` also inserts a colon
between the visibility tag (`private.`/`public.`) resp. the `read.` /
`write.` token and the following element, so the computed channels are
`chat-engine:chat:private.:lobby`, `chat-engine:user:u1:read.:feed` and
`chat-engine:user:u1:write.:direct` — none of which equal the claimed
`<g>:chat:private.<id>`, `<g>:user:<id>:read.feed`,
`<g>:user:<id>:write.direct` formats. -/
theorem channel_naming_cex :
    chatChannel "chat-engine" true "lobby" = "chat-engine:chat:private.:lobby"
    ∧ chatChannel "chat-engine" true "lobby" ≠ "chat-engine:chat:private.lobby"
    ∧ feedChannel "chat-engine" "u1" = "chat-engine:user:u1:read.:feed"
    ∧ feedChannel "chat-engine" "u1" ≠ "chat-engine:user:u1:read.feed"
    ∧ directChannel "chat-engine" "u1" = "chat-engine:user:u1:write.:direct"
    ∧ directChannel "chat-engine" "u1" ≠ "chat-engine:user:u1:write.direct" := by
  refine ⟨by decide, by decide, by decide, by decide, by decide, by decide⟩

/-- C4 (corrected): for an identifier that does not already contain the
global namespace, the ordinary chat channel is
`<g>:chat:<private.|public.>:<id>` (one extra `:` after the visibility
tag compared to the claim), and the per-identity channels are
`<g>:user:<id>:read.:feed` and `<g>:user:<id>:write.:direct`. -/
theorem chatChannel_of_contains (g : String) (ng : Bool) (ch : String)
    (h : strContains ch g = true) : chatChannel g ng ch = ch := by
  simp [chatChannel, h]

theorem channel_naming_amended (g u id : String) :
    (strContains id g = false →
        chatChannel g true id = g ++ ":" ++ "chat" ++ ":" ++ "private." ++ ":" ++ id
        ∧ chatChannel g false id = g ++ ":" ++ "chat" ++ ":" ++ "public." ++ ":" ++ id)
    ∧ feedChannel g u = g ++ ":" ++ "user" ++ ":" ++ u ++ ":" ++ "read." ++ ":" ++ "feed"
    ∧ directChannel g u = g ++ ":" ++ "user" ++ ":" ++ u ++ ":" ++ "write." ++ ":" ++ "direct" := by
  refine ⟨fun h => ⟨?_, ?_⟩, ?_, ?_⟩
  · simp [chatChannel, h, joinColon, str_append_assoc]
    congr 1
  · simp [chatChannel, h, joinColon, str_append_assoc]
    congr 1
  · unfold feedChannel
    rw [chatChannel_of_contains g false _ (strContains_rawFeed g u)]
    simp [rawFeedChannel, joinColon, str_append_assoc]
    congr 1
  · unfold directChannel
    rw [chatChannel_of_contains g false _ (strContains_rawDirect g u)]
    simp [rawDirectChannel, joinColon, str_append_assoc]
    congr 1

/-- C4 witness: the amended formats evaluated at `chat-engine`, `u1`,
`lobby`. -/
theorem channel_naming_amended_witness :
    chatChannel "chat-engine" true "lobby"
        = "chat-engine" ++ ":" ++ "chat" ++ ":" ++ "private." ++ ":" ++ "lobby"
    ∧ feedChannel "chat-engine" "u1"
        = "chat-engine" ++ ":" ++ "user" ++ ":" ++ "u1" ++ ":" ++ "read." ++ ":" ++ "feed" :=
  ⟨((channel_naming_amended "chat-engine" "u1" "lobby").1 (by decide)).1,
   (channel_naming_amended "chat-engine" "u1" "lobby").2.1⟩

/-! ## C1 — connected status idempotence -/

/-- C1 counterexample: a disconnected chat that receives the same
matching `PNConnectedCategory` status notification twice triggers
`$.connected` twice, not once. -/
theorem connected_status_twice_cex :
    (deliverStatusTwice ⟨"ch", [], false⟩ ⟨"PNConnectedCategory", ["ch"]⟩).2
        = [Ev.connectedEv, Ev.connectedEv]
    ∧ (deliverStatusTwice ⟨"ch", [], false⟩ ⟨"PNConnectedCategory", ["ch"]⟩).2.length ≠ 1 := by
  refine ⟨by decide, by decide⟩

/-- C1 (corrected): `Chat.onStatus` has no guard on the previous value of
`this.connected`: every matching connected status notification sets the
flag and triggers `$.connected`, so delivering the same notification
twice yields two `$.connected` lifecycle notifications.  The `connected`
flag only guards `Chat.connect` from re-subscribing. -/
theorem connected_status_amended (c : ChatState) (s : StatusEvent)
    (hcat : s.category = "PNConnectedCategory")
    (hch : s.affectedChannels.contains c.channel = true) :
    onStatus c s = ({ c with connected := true }, [Ev.connectedEv])
    ∧ deliverStatusTwice c s = ({ c with connected := true }, [Ev.connectedEv, Ev.connectedEv])
    ∧ (∀ c2 : ChatState, c2.connected = true → connect c2 = (c2, [])) := by
  have hmem : c.channel ∈ s.affectedChannels := by simpa using hch
  refine ⟨?_, ?_, ?_⟩
  · simp [onStatus, hcat, hmem]
  · simp [deliverStatusTwice, onStatus, hcat, hmem]
  · intro c2 h2
    simp [connect, h2]

/-- C1 witness: the amended behaviour at a concrete chat and status. -/
theorem connected_status_amended_witness :
    deliverStatusTwice ⟨"ch", [], false⟩ ⟨"PNConnectedCategory", ["ch"]⟩
        = (⟨"ch", [], true⟩, [Ev.connectedEv, Ev.connectedEv]) :=
  (connected_status_amended ⟨"ch", [], false⟩ ⟨"PNConnectedCategory", ["ch"]⟩ rfl
    (by decide)).2.1

/-! ## C5 — leave -/

/-- C5 counterexample: after `Chat.leave` on a connected chat, the
`connected` flag is still `true` — the code never resets it, so the chat
does not move to a disconnected state. -/
theorem leave_keeps_connected_cex :
    (leave ⟨"ch", [("u1", 0)], true⟩).1.connected = true
    ∧ (leave ⟨"ch", [("u1", 0)], true⟩).1.connected ≠ false := by
  refine ⟨by decide, by decide⟩

/-- C5 (corrected): `Chat.leave` issues exactly one transport unsubscribe
for this chat's channel and changes no local state at all: the roster is
left unchanged as claimed, but so is the `connected` flag, and no
subscribe (reconnection) is issued by this layer. -/
theorem leave_amended (c : ChatState) :
    leave c = (c, [TransportAction.unsubscribeChans [c.channel]])
    ∧ ((leave c).2.all fun a =>
        match a with
        | TransportAction.subscribeChans _ => false
        | TransportAction.unsubscribeChans _ => true) = true := by
  exact ⟨rfl, rfl⟩

/-! ## C6 — shallow state merge, fully merged notifications -/

/-- C6 (confirmed): `Object.assign`-style merging never removes keys that
are absent from the new state and overwrites present ones; and the
`$.state` notification carries the fully merged per-room state: merging
`a ↦ 1` then `b ↦ 2` for the same user and chat produces a notification
whose state object is exactly `a ↦ 1, b ↦ 2`. -/
theorem state_merge_full :
    (∀ (t s : List (String × Int)) (k : String),
        getKey s k = none → getKey (objAssign t s) k = getKey t k)
    ∧ (∀ (t s : List (String × Int)) (k : String) (v : Int),
        (s.map Prod.fst).Nodup → getKey s k = some v → getKey (objAssign t s) k = some v)
    ∧ mergeStep2.evs = [Ev.stateEv "u2" 0 [("a", 1), ("b", 2)]] := by
  refine ⟨?_, ?_, by decide⟩
  · intro t s k h
    exact objAssign_getKey_none s k t h
  · intro t s k v hnd h
    exact objAssign_getKey_some s k v hnd t h

/-- C6 witness: the merge lemmas evaluated at concrete state objects. -/
theorem state_merge_full_witness :
    getKey (objAssign [("a", (1 : Int))] [("b", 2)]) "a" = getKey [("a", (1 : Int))] "a"
    ∧ getKey (objAssign [("a", (1 : Int))] [("b", 2)]) "b" = some 2 :=
  ⟨state_merge_full.1 [("a", 1)] [("b", 2)] "a" (by decide),
   state_merge_full.2.1 [("a", 1)] [("b", 2)] "b" 2 (by decide) (by decide)⟩

/-! ## C2 — join suppresses `$.online.new` for known participants -/

/-- C2 (confirmed): a join presence notification matching the chat's
channel triggers a `$.online.new` notification for the joining uuid
exactly when the uuid was not already in the roster; `createUser` with
`trigger = true` (the explicit force) triggers it regardless. -/
theorem join_online_new_iff_unknown (e : Engine) (c : ChatState) (p : PresenceEvent)
    (hact : p.action = "join") (hch : p.channel = c.channel) :
    hasOnlineNew (onPresence e c p).evs p.uuid = (getKey c.users p.uuid).isNone
    ∧ (∀ st : StateMap, hasOnlineNew (createUser e c p.uuid st true).1.evs p.uuid = true) := by
  have hch2 : c.channel = p.channel := hch.symm
  constructor
  · cases hg : getKey c.users p.uuid with
    | none =>
      simp [onPresence, hch2, hact, createUser, hasOnlineNew, hg]
    | some r =>
      simp [onPresence, hch2, hact, createUser, hasOnlineNew, hg]
  · intro st
    cases hg : getKey c.users p.uuid with
    | none => simp [createUser, hasOnlineNew, hg]
    | some r => simp [createUser, hasOnlineNew, hg]

/-- C2 witness: a join for unknown `u2` on the lobby triggers
`$.online.new`; a second identical join does not. -/
theorem join_online_new_iff_unknown_witness :
    hasOnlineNew (onPresence engine0 lobbyChat joinEvU2).evs joinEvU2.uuid = true
    ∧ hasOnlineNew
        (onPresence (onPresence engine0 lobbyChat joinEvU2).engine
          (onPresence engine0 lobbyChat joinEvU2).chat joinEvU2).evs joinEvU2.uuid = false := by
  have h1 := join_online_new_iff_unknown engine0 lobbyChat joinEvU2 rfl rfl
  have h2 := join_online_new_iff_unknown (onPresence engine0 lobbyChat joinEvU2).engine
    (onPresence engine0 lobbyChat joinEvU2).chat joinEvU2 rfl (by decide)
  refine ⟨?_, ?_⟩
  · rw [h1.1]; decide
  · rw [h2.1]; decide

/-! ## C7 — leave presence reconciliation -/

/-- C7 (confirmed): a leave presence notification on the chat's channel
leaves the global Identity table untouched in every case; for a uuid not
in the roster it is a total no-op (no notification, no state change); for
a rostered uuid it triggers exactly one `$.offline.leave` carrying that
user's ref and removes only that uuid from the roster. -/
theorem leave_presence_semantics (e : Engine) (c : ChatState) (p : PresenceEvent)
    (hact : p.action = "leave") (hch : p.channel = c.channel)
    (hnd : (c.users.map Prod.fst).Nodup) :
    (onPresence e c p).engine = e
    ∧ (getKey c.users p.uuid = none → onPresence e c p = { engine := e, chat := c, evs := [] })
    ∧ (∀ r, getKey c.users p.uuid = some r →
        (onPresence e c p).evs = [Ev.offlineLeave p.uuid r]
        ∧ getKey (onPresence e c p).chat.users p.uuid = none
        ∧ (∀ u, u ≠ p.uuid → getKey (onPresence e c p).chat.users u = getKey c.users u)) := by
  have hch2 : c.channel = p.channel := hch.symm
  refine ⟨?_, ?_, ?_⟩
  · cases hg : getKey c.users p.uuid with
    | none => simp [onPresence, hch2, hact, userLeave, hg]
    | some r => simp [onPresence, hch2, hact, userLeave, hg]
  · intro hg
    simp [onPresence, hch2, hact, userLeave, hg]
  · intro r hg
    refine ⟨?_, ?_, ?_⟩
    · simp [onPresence, hch2, hact, userLeave, hg]
    · simp only [onPresence, hch2, hact]
      simp [userLeave, hg, getKey_delKey_self c.users p.uuid hnd]
    · intro u hu
      simp only [onPresence, hch2, hact]
      simp [userLeave, hg, getKey_delKey_ne c.users p.uuid u hu]

/-- C7 witness: leave semantics evaluated on a roster containing `u2` and
on an empty roster. -/
theorem leave_presence_semantics_witness :
    (onPresence engine0
        ⟨"chat-engine:chat:private.:lobby", [("u2", 0)], true⟩
        ⟨"chat-engine:chat:private.:lobby", "leave", "u2", []⟩).evs
      = [Ev.offlineLeave "u2" 0]
    ∧ onPresence engine0 lobbyChat ⟨"chat-engine:chat:private.:lobby", "leave", "u2", []⟩
      = { engine := engine0, chat := lobbyChat, evs := [] } := by
  have h1 := leave_presence_semantics engine0
    ⟨"chat-engine:chat:private.:lobby", [("u2", 0)], true⟩
    ⟨"chat-engine:chat:private.:lobby", "leave", "u2", []⟩ rfl rfl (by decide)
  have h2 := leave_presence_semantics engine0 lobbyChat
    ⟨"chat-engine:chat:private.:lobby", "leave", "u2", []⟩ rfl rfl (by decide)
  exact ⟨(h1.2.2 0 (by decide)).1, h2.2.1 (by decide)⟩

/-! ## C10 — state-change for an unknown participant runs the join path -/

/-- C10 (confirmed): a `state-change` presence notification on the chat's
channel for a uuid not in the roster triggers `$.online.new` and the
`$.state` notification and adds the uuid to the roster; for a rostered
uuid it triggers only the `$.state` notification and leaves the roster
unchanged. -/
theorem state_change_join_semantics (e : Engine) (c : ChatState) (p : PresenceEvent)
    (hact : p.action = "state-change") (hch : p.channel = c.channel) :
    ((getKey c.users p.uuid).isNone = true →
        hasOnlineNew (onPresence e c p).evs p.uuid = true
        ∧ hasStateEv (onPresence e c p).evs p.uuid = true
        ∧ (getKey (onPresence e c p).chat.users p.uuid).isSome = true)
    ∧ ((getKey c.users p.uuid).isSome = true →
        hasOnlineNew (onPresence e c p).evs p.uuid = false
        ∧ hasStateEv (onPresence e c p).evs p.uuid = true
        ∧ (onPresence e c p).chat = c) := by
  have hch2 : c.channel = p.channel := hch.symm
  constructor
  · intro hg0
    cases hg : getKey c.users p.uuid with
    | some r => rw [hg] at hg0; simp at hg0
    | none =>
      refine ⟨?_, ?_, ?_⟩
      · simp [onPresence, hch2, hact, userUpdate, createUser, hasOnlineNew, hg]
      · simp [onPresence, hch2, hact, userUpdate, createUser, hasStateEv, hg]
      · simp [onPresence, hch2, hact, userUpdate, createUser, hg, getKey_setKey_self]
  · intro hg0
    cases hg : getKey c.users p.uuid with
    | none => rw [hg] at hg0; simp at hg0
    | some r =>
      refine ⟨?_, ?_, ?_⟩
      · simp [onPresence, hch2, hact, userUpdate, hasOnlineNew, hg]
      · simp [onPresence, hch2, hact, userUpdate, hasStateEv, hg]
      · simp [onPresence, hch2, hact, userUpdate, hg]

/-- C10 witness: the state-change semantics at a concrete unknown and
known participant. -/
theorem state_change_join_semantics_witness :
    hasOnlineNew (onPresence engine0 lobbyChat
        ⟨"chat-engine:chat:private.:lobby", "state-change", "u2", [("a", 1)]⟩).evs "u2" = true
    ∧ hasOnlineNew (onPresence mergeStep1.engine mergeStep1.chat
        ⟨"chat-engine:chat:private.:lobby", "state-change", "u2", [("b", 2)]⟩).evs "u2" = false := by
  have h1 := state_change_join_semantics engine0 lobbyChat
    ⟨"chat-engine:chat:private.:lobby", "state-change", "u2", [("a", 1)]⟩ rfl rfl
  have h2 := state_change_join_semantics mergeStep1.engine mergeStep1.chat
    ⟨"chat-engine:chat:private.:lobby", "state-change", "u2", [("b", 2)]⟩ rfl (by decide)
  exact ⟨(h1.1 (by decide)).1, (h2.2 (by decide)).1⟩

/-! ## C3 — middleware failure -/

/-- A plugin whose trigger-stage handler for event `e` always fails. -/
def failOnPlugin : Plugin Payload :=
  mkPlugin "on" "e" fun _ => Except.error "boom"

/-- A plugin whose emit-stage handler for event `e` always fails. -/
def failEmitPlugin : Plugin Payload :=
  mkPlugin "emit" "e" fun _ => Except.error "boom"

/-- An incoming payload before `trigger`'s preprocessing. -/
def seedNoChat : Payload := { marks := [], chat := false }

theorem runTasks_error_eq {α : Type} (msg : String) (ts : List (α → Except String α)) :
    runTasks (Except.error msg) ts = Except.error msg := by
  cases ts <;> rfl

/-- C3 counterexample: a trigger-stage middleware step fails, yet local
listeners are still invoked — `trigger`'s final callback calls
`this._emit(event, payload)` without checking the error, delivering the
event with an `undefined` payload. -/
theorem middleware_failure_cex :
    runPluginQueue [failOnPlugin] "on" "e" (Except.ok (reattachChat seedNoChat))
        = Except.error "boom"
    ∧ triggerRun [failOnPlugin] "e" seedNoChat = TriggerOutcome.delivered none
    ∧ deliveredToListeners (triggerRun [failOnPlugin] "e" seedNoChat) = true := by
  refine ⟨rfl, rfl, rfl⟩

/-- C3 (corrected): when a middleware step fails, `waterfall` skips every
remaining step and hands the error to the final callback with no payload.
On the emit stage nothing is published — the final callback throws a
`TypeError` dereferencing the missing payload before reaching `publish`.
On the trigger stage, however, the event IS still delivered to local
listeners, with an `undefined` payload, because the final callback calls
`_emit` unconditionally. -/
theorem middleware_failure_amended :
    (∀ (α : Type) (msg : String) (ts : List (α → Except String α)),
        runTasks (Except.error msg) ts = Except.error msg)
    ∧ (∀ (plugins : List (Plugin Payload)) (event : String) (marks : List String) (msg : String),
        runPluginQueue plugins "emit" event (Except.ok (emitSeedPayload marks))
            = Except.error msg →
        emitRun plugins event marks = EmitOutcome.thrown)
    ∧ (∀ (plugins : List (Plugin Payload)) (event : String) (seed : Payload) (msg : String),
        runPluginQueue plugins "on" event (Except.ok (reattachChat seed))
            = Except.error msg →
        triggerRun plugins event seed = TriggerOutcome.delivered none) := by
  refine ⟨?_, ?_, ?_⟩
  · intro α msg ts
    exact runTasks_error_eq msg ts
  · intro plugins event marks msg h
    simp [emitRun, h]
  · intro plugins event seed msg h
    simp [triggerRun, h]

/-- C3 witness: the amended behaviour at concrete failing pipelines. -/
theorem middleware_failure_amended_witness :
    emitRun [failEmitPlugin] "e" [] = EmitOutcome.thrown
    ∧ triggerRun [failOnPlugin] "e" seedNoChat = TriggerOutcome.delivered none :=
  ⟨middleware_failure_amended.2.1 [failEmitPlugin] "e" [] "boom" rfl,
   middleware_failure_amended.2.2 [failOnPlugin] "e" seedNoChat "boom" rfl⟩

/-! ## C8 — middleware ordering -/

/-- A plugin appending a marker to the payload on the emit stage of
event `e`. -/
def markPlugin (mark : String) : Plugin Payload :=
  mkPlugin "emit" "e" fun p => Except.ok { p with marks := p.marks ++ [mark] }

theorem foldl_bind_error {α : Type} (msg : String) (ts : List (α → Except String α)) :
    ts.foldl (fun acc t => acc.bind t) (Except.error msg) = Except.error msg := by
  induction ts with
  | nil => rfl
  | cons t rest ih =>
    rw [List.foldl_cons]
    have hb : (Except.error msg : Except String α).bind t = Except.error msg := rfl
    rw [hb]
    exact ih

theorem runTasks_eq_foldl {α : Type} (ts : List (α → Except String α)) :
    ∀ acc : Except String α, runTasks acc ts = ts.foldl (fun acc t => acc.bind t) acc := by
  induction ts with
  | nil => intro acc; rfl
  | cons t rest ih =>
    intro acc
    cases acc with
    | error msg =>
      have hl : runTasks (Except.error msg) (t :: rest) = Except.error msg := rfl
      have hb : (Except.error msg : Except String α).bind t = Except.error msg := rfl
      rw [hl, List.foldl_cons, hb]
      exact (foldl_bind_error msg rest).symm
    | ok p =>
      have hl : runTasks (Except.ok p) (t :: rest) = runTasks (t p) rest := rfl
      have hb : (Except.ok p : Except String α).bind t = t p := rfl
      rw [hl, List.foldl_cons, hb]
      exact ih (t p)

/-- C8 (confirmed): `runPluginQueue` is exactly the sequential
left-to-right composition (seed first, then the registered handlers for
the stage and event in registration order, each step fed the previous
output); in particular two plugins P1, P2 registered in that order
compose as `g ∘ f` on the payload, and the marker experiment yields
`[P1, P2]`. -/
theorem plugin_queue_order :
    (∀ (α : Type) (plugins : List (Plugin α)) (location event : String)
        (seed : Except String α),
        runPluginQueue plugins location event seed
          = (buildQueue plugins location event).foldl (fun acc t => acc.bind t) seed)
    ∧ (∀ (α : Type) (location event : String) (f g : α → α) (seed : α),
        runPluginQueue
            [mkPlugin location event (fun p => Except.ok (f p)),
             mkPlugin location event (fun p => Except.ok (g p))]
            location event (Except.ok seed)
          = Except.ok (g (f seed)))
    ∧ emitRun [markPlugin "P1", markPlugin "P2"] "e" []
        = EmitOutcome.published { marks := ["P1", "P2"], chat := false } := by
  refine ⟨?_, ?_, by decide⟩
  · intro α plugins location event seed
    exact runTasks_eq_foldl _ seed
  · intro α location event f g seed
    simp [runPluginQueue, buildQueue, mkPlugin, runTasks]

/-! ## C9 — Identity singleton invariant

Helper lemmas: every tracked operation only extends the global table
(`enginePersists`) and keeps every roster entry reference-identical to
the global table's binding (`chatAligned`). -/

theorem enginePersists_trans {a b c : Engine}
    (h1 : enginePersists a b) (h2 : enginePersists b c) : enginePersists a c :=
  fun u r h => h2 u r (h1 u r h)

theorem chatAligned_mono (e e2 : Engine) (c : ChatState)
    (hp : enginePersists e e2) (hal : chatAligned e c) : chatAligned e2 c :=
  ⟨fun u r h => hp u r (hal.1 u r h), hal.2⟩

theorem modifyUser_users (e : Engine) (ref : Nat) (f : UserObj → UserObj) :
    (modifyUser e ref f).users = e.users := by
  cases h : getKey e.heap ref <;> simp [modifyUser, h]

theorem ensure_persists (e : Engine) (uuid : String) :
    enginePersists e (ensureGlobalUser e uuid).1 := by
  intro u r h
  unfold ensureGlobalUser
  cases hg : getKey e.users uuid with
  | some r2 => simpa using h
  | none =>
    have hne : u ≠ uuid := by
      intro he
      rw [he, hg] at h
      cases h
    simp only [jsNewUser, hg, Option.isNone_none, if_true]
    rw [getKey_setKey_ne e.users uuid u e.nextRef hne]
    exact h

theorem ensure_binds (e : Engine) (uuid : String) :
    getKey (ensureGlobalUser e uuid).1.users uuid = some (ensureGlobalUser e uuid).2 := by
  unfold ensureGlobalUser
  cases hg : getKey e.users uuid with
  | some r2 => simpa using hg
  | none => simp [jsNewUser, hg, getKey_setKey_self]

theorem createUser_engine_users (e : Engine) (c : ChatState) (uuid : String) (st : StateMap)
    (force : Bool) :
    (createUser e c uuid st force).1.engine.users = (ensureGlobalUser e uuid).1.users := by
  simp [createUser, modifyUser_users]

theorem createUser_chat_users (e : Engine) (c : ChatState) (uuid : String) (st : StateMap)
    (force : Bool) :
    (createUser e c uuid st force).1.chat.users
      = setKey c.users uuid (ensureGlobalUser e uuid).2 := by
  simp [createUser]

theorem createUser_persists (e : Engine) (c : ChatState) (uuid : String) (st : StateMap)
    (force : Bool) : enginePersists e (createUser e c uuid st force).1.engine := by
  intro u r h
  rw [createUser_engine_users]
  exact ensure_persists e uuid u r h

theorem createUser_binds (e : Engine) (c : ChatState) (uuid : String) (st : StateMap)
    (force : Bool) :
    getKey (createUser e c uuid st force).1.engine.users uuid
      = some (createUser e c uuid st force).2 := by
  have hr : (createUser e c uuid st force).2 = (ensureGlobalUser e uuid).2 := by
    simp [createUser]
  rw [createUser_engine_users, hr]
  exact ensure_binds e uuid

theorem createUser_aligned (e : Engine) (c : ChatState) (uuid : String) (st : StateMap)
    (force : Bool) (hal : chatAligned e c) :
    chatAligned (createUser e c uuid st force).1.engine
      (createUser e c uuid st force).1.chat := by
  constructor
  · intro u r h
    rw [createUser_chat_users] at h
    by_cases he : u = uuid
    · subst he
      rw [getKey_setKey_self] at h
      rw [← h]
      exact createUser_binds e c u st force
    · rw [getKey_setKey_ne c.users uuid u _ he] at h
      rw [createUser_engine_users]
      exact ensure_persists e uuid u r (hal.1 u r h)
  · rw [createUser_chat_users]
    exact nodup_setKey c.users uuid _ hal.2

theorem userUpdate_persists (e : Engine) (c : ChatState) (uuid : String) (st : StateMap) :
    enginePersists e (userUpdate e c uuid st).engine := by
  intro u r h
  cases hg : getKey c.users uuid with
  | none =>
    simp only [userUpdate, hg, modifyUser_users]
    rw [createUser_engine_users]
    exact ensure_persists _ uuid u r (ensure_persists e uuid u r h)
  | some r2 =>
    simp only [userUpdate, hg, modifyUser_users]
    exact ensure_persists e uuid u r h

theorem userUpdate_binds (e : Engine) (c : ChatState) (uuid : String) (st : StateMap) :
    (getKey (userUpdate e c uuid st).engine.users uuid).isSome = true := by
  cases hg : getKey c.users uuid with
  | none =>
    simp only [userUpdate, hg, modifyUser_users]
    rw [createUser_binds]
    rfl
  | some r2 =>
    simp only [userUpdate, hg, modifyUser_users]
    rw [ensure_binds]
    rfl

theorem userUpdate_aligned (e : Engine) (c : ChatState) (uuid : String) (st : StateMap)
    (hal : chatAligned e c) :
    chatAligned (userUpdate e c uuid st).engine (userUpdate e c uuid st).chat := by
  cases hg : getKey c.users uuid with
  | none =>
    have hal1 : chatAligned (ensureGlobalUser e uuid).1 c :=
      chatAligned_mono _ _ _ (ensure_persists e uuid) hal
    have h2 := createUser_aligned (ensureGlobalUser e uuid).1 c uuid st false hal1
    refine ⟨?_, ?_⟩
    · intro u r h
      simp only [userUpdate, hg, modifyUser_users] at h ⊢
      exact h2.1 u r h
    · simp only [userUpdate, hg]
      exact h2.2
  | some r2 =>
    refine ⟨?_, ?_⟩
    · intro u r h
      simp only [userUpdate, hg, modifyUser_users] at h ⊢
      exact ensure_persists e uuid u r (hal.1 u r h)
    · simp only [userUpdate, hg]
      exact hal.2

theorem userLeave_engine (e : Engine) (c : ChatState) (uuid : String) :
    (userLeave e c uuid).engine = e := by
  cases h : getKey c.users uuid <;> simp [userLeave, h]

theorem userLeave_aligned (e : Engine) (c : ChatState) (uuid : String)
    (hal : chatAligned e c) :
    chatAligned (userLeave e c uuid).engine (userLeave e c uuid).chat := by
  cases hg : getKey c.users uuid with
  | none => simpa [userLeave, hg] using hal
  | some r2 =>
    refine ⟨?_, ?_⟩
    · intro u r h
      simp only [userLeave, hg] at h ⊢
      exact hal.1 u r (getKey_delKey_sub c.users uuid u r hal.2 h)
    · simp only [userLeave, hg]
      exact nodup_delKey c.users uuid hal.2

theorem userDisconnect_engine (e : Engine) (c : ChatState) (uuid : String) :
    (userDisconnect e c uuid).engine = e := by
  cases h : getKey c.users uuid <;> simp [userDisconnect, h]

theorem userDisconnect_chat (e : Engine) (c : ChatState) (uuid : String) :
    (userDisconnect e c uuid).chat = c := by
  cases h : getKey c.users uuid <;> simp [userDisconnect, h]

theorem onPresence_cases (e : Engine) (c : ChatState) (p : PresenceEvent) :
    onPresence e c p = { engine := e, chat := c, evs := [] }
    ∨ onPresence e c p
        = { (createUser e c p.uuid p.state false).1 with
            evs := (createUser e c p.uuid p.state false).1.evs
              ++ [Ev.onlineJoin p.uuid (createUser e c p.uuid p.state false).2] }
    ∨ onPresence e c p = userLeave e c p.uuid
    ∨ onPresence e c p = userDisconnect e c p.uuid
    ∨ onPresence e c p = userUpdate e c p.uuid p.state := by
  unfold onPresence
  by_cases hch : c.channel = p.channel
  · rw [if_pos hch]
    by_cases h1 : p.action = "join"
    · rw [if_pos h1]
      right; left; rfl
    · rw [if_neg h1]
      by_cases h2 : p.action = "leave"
      · rw [if_pos h2]
        right; right; left; rfl
      · rw [if_neg h2]
        by_cases h3 : p.action = "timeout"
        · rw [if_pos h3]
          right; right; right; left; rfl
        · rw [if_neg h3]
          by_cases h4 : p.action = "state-change"
          · rw [if_pos h4]
            right; right; right; right; rfl
          · rw [if_neg h4]
            left; rfl
  · rw [if_neg hch]
    left; rfl

theorem onPresence_persists (e : Engine) (c : ChatState) (p : PresenceEvent) :
    enginePersists e (onPresence e c p).engine := by
  rcases onPresence_cases e c p with h | h | h | h | h <;> rw [h]
  · exact fun u r hh => hh
  · exact createUser_persists e c p.uuid p.state false
  · rw [userLeave_engine]
    exact fun u r hh => hh
  · rw [userDisconnect_engine]
    exact fun u r hh => hh
  · exact userUpdate_persists e c p.uuid p.state

theorem onPresence_aligned (e : Engine) (c : ChatState) (p : PresenceEvent)
    (hal : chatAligned e c) :
    chatAligned (onPresence e c p).engine (onPresence e c p).chat := by
  rcases onPresence_cases e c p with h | h | h | h | h <;> rw [h]
  · exact hal
  · exact createUser_aligned e c p.uuid p.state false hal
  · exact userLeave_aligned e c p.uuid hal
  · rw [userDisconnect_engine, userDisconnect_chat]
    exact hal
  · exact userUpdate_aligned e c p.uuid p.state hal

theorem onPresence_creates (e : Engine) (c : ChatState) (p : PresenceEvent)
    (hch : c.channel = p.channel)
    (hact : p.action = "join" ∨ p.action = "state-change") :
    (getKey (onPresence e c p).engine.users p.uuid).isSome = true := by
  rcases hact with h | h
  · have hr : onPresence e c p
        = { (createUser e c p.uuid p.state false).1 with
            evs := (createUser e c p.uuid p.state false).1.evs
              ++ [Ev.onlineJoin p.uuid (createUser e c p.uuid p.state false).2] } := by
      unfold onPresence
      rw [if_pos hch, if_pos h]
    rw [hr]
    show (getKey (createUser e c p.uuid p.state false).1.engine.users p.uuid).isSome = true
    rw [createUser_binds]
    rfl
  · have hr : onPresence e c p = userUpdate e c p.uuid p.state := by
      unfold onPresence
      rw [if_pos hch, if_neg (by simp [h]), if_neg (by simp [h]), if_neg (by simp [h]),
        if_pos h]
    rw [hr]
    exact userUpdate_binds e c p.uuid p.state

theorem stepChats_persists (cs : List ChatState) :
    ∀ (e : Engine) (p : PresenceEvent), enginePersists e (stepChats e cs p).1 := by
  induction cs with
  | nil => intro e p u r h; exact h
  | cons c rest ih =>
    intro e p
    have h1 : (stepChats e (c :: rest) p).1 = (stepChats (onPresence e c p).engine rest p).1 :=
      rfl
    rw [h1]
    exact enginePersists_trans (onPresence_persists e c p) (ih (onPresence e c p).engine p)

theorem stepChats_aligned (cs : List ChatState) :
    ∀ (e : Engine) (p : PresenceEvent), (∀ c2 ∈ cs, chatAligned e c2) →
      ∀ c2 ∈ (stepChats e cs p).2.1, chatAligned (stepChats e cs p).1 c2 := by
  induction cs with
  | nil =>
    intro e p _ c2 hc2
    simp [stepChats] at hc2
  | cons c rest ih =>
    intro e p hal c2 hc2
    have hc : (stepChats e (c :: rest) p).2.1
        = (onPresence e c p).chat :: (stepChats (onPresence e c p).engine rest p).2.1 := rfl
    have h1 : (stepChats e (c :: rest) p).1 = (stepChats (onPresence e c p).engine rest p).1 :=
      rfl
    rw [hc] at hc2
    rw [h1]
    rcases List.mem_cons.mp hc2 with h | h
    · subst h
      exact chatAligned_mono _ _ _ (stepChats_persists rest (onPresence e c p).engine p)
        (onPresence_aligned e c p (hal c (List.mem_cons_self c rest)))
    · exact ih (onPresence e c p).engine p
        (fun c3 hc3 => chatAligned_mono _ _ _ (onPresence_persists e c p)
          (hal c3 (List.mem_cons_of_mem c hc3))) c2 h

theorem stepChats_creates (cs : List ChatState) :
    ∀ (e : Engine) (p : PresenceEvent),
      (p.action = "join" ∨ p.action = "state-change") →
      (∃ c ∈ cs, c.channel = p.channel) →
      (getKey (stepChats e cs p).1.users p.uuid).isSome = true := by
  induction cs with
  | nil =>
    intro e p _ hex
    rcases hex with ⟨c, hc, _⟩
    simp at hc
  | cons c rest ih =>
    intro e p hact hex
    have h1 : (stepChats e (c :: rest) p).1 = (stepChats (onPresence e c p).engine rest p).1 :=
      rfl
    rw [h1]
    rcases hex with ⟨c2, hc2, hch⟩
    rcases List.mem_cons.mp hc2 with he | he
    · subst he
      have hb := onPresence_creates e c2 p hch hact
      rcases Option.isSome_iff_exists.mp hb with ⟨r, hr⟩
      have hp := stepChats_persists rest (onPresence e c2 p).engine p p.uuid r hr
      rw [hp]
      rfl
    · exact ih (onPresence e c p).engine p hact ⟨c2, he, hch⟩

theorem runWorld_invariant (ps : List PresenceEvent) :
    ∀ w : World, worldAligned w →
      worldAligned (runWorld w ps) ∧ enginePersists w.engine (runWorld w ps).engine := by
  induction ps with
  | nil => intro w hal; exact ⟨hal, fun u r h => h⟩
  | cons p rest ih =>
    intro w hal
    have hstep_al : worldAligned (stepWorld w p).1 := by
      intro c hc
      exact stepChats_aligned w.chats w.engine p hal c hc
    have hstep_pers : enginePersists w.engine (stepWorld w p).1.engine :=
      stepChats_persists w.chats w.engine p
    have hrec := ih (stepWorld w p).1 hstep_al
    exact ⟨hrec.1, enginePersists_trans hstep_pers hrec.2⟩

/-- C9 (confirmed): starting from any process state in which every roster
entry references the global table's binding (for example the initial
empty state), after any sequence of presence notifications (i) every
roster entry of every chat is still reference-identical to the global
Identity table's entry for the same uuid, (ii) the global table's
binding for any uuid, once assigned, is never rebound — later
observations mutate the same heap object — and (iii) a join or
state-change notification matching some chat's channel creates the
global Identity on first observation. -/
theorem identity_singleton_invariant (w : World) (ps : List PresenceEvent)
    (hal : worldAligned w) :
    worldAligned (runWorld w ps)
    ∧ enginePersists w.engine (runWorld w ps).engine
    ∧ (∀ p : PresenceEvent, (p.action = "join" ∨ p.action = "state-change") →
        (∃ c ∈ w.chats, c.channel = p.channel) →
        (getKey (stepWorld w p).1.engine.users p.uuid).isSome = true) := by
  refine ⟨(runWorld_invariant ps w hal).1, (runWorld_invariant ps w hal).2, ?_⟩
  intro p hact hex
  exact stepChats_creates w.chats w.engine p hact hex

/-- C9 witness: a join for `u2` on a one-chat process with an empty
aligned roster. -/
theorem identity_singleton_invariant_witness :
    worldAligned (runWorld ⟨engine0, [lobbyChat]⟩ [joinEvU2])
    ∧ (getKey (stepWorld ⟨engine0, [lobbyChat]⟩ joinEvU2).1.engine.users
        joinEvU2.uuid).isSome = true := by
  have hal : worldAligned ⟨engine0, [lobbyChat]⟩ := by
    intro c hc
    simp only [List.mem_singleton] at hc
    subst hc
    constructor
    · intro u r h2
      simp [lobbyChat, getKey] at h2
    · simp [lobbyChat]
  have h := identity_singleton_invariant ⟨engine0, [lobbyChat]⟩ [joinEvU2] hal
  exact ⟨h.1, h.2.2 joinEvU2 (Or.inl rfl) ⟨lobbyChat, by simp, rfl⟩⟩

end ChatEngine

